import Mathlib

/-!
Verification of the melrose MIDI playback engine against its specification.

The definitions below are a shallow embedding of the Go source:
`midi/device.go` (the `Midi` playback methods, the pedal handler and the
`DeviceRegistry`) and `control/listen.go` (the `Listen` note listener).
Durations are modelled in milliseconds as exact rationals; the Go code
computes durations as `time.Duration` nanoseconds via float arithmetic,
which we abstract by exact arithmetic on ℚ.
-/

namespace Melrose

/-- Pedal marker carried by a `core.Note`: none, pedal-up, pedal-down or
pedal-up-then-down. -/
inductive Pedal where
  | noPedal
  | pedalUp
  | pedalDown
  | pedalUpDown
  deriving DecidableEq, Repr

/-- Shallow embedding of `melrose.Note` / `core.Note`: rest marker, MIDI
number, duration factor (fraction of a whole note) and pedal marker. -/
structure Note where
  isRest : Bool
  midi : Int
  durationFactor : ℚ
  pedal : Pedal
  deriving DecidableEq, Repr

/-- `Note.IsRest` from the source. -/
def Note.IsRestB (n : Note) : Bool := n.isRest

/-- `Note.MIDI` from the source. -/
def Note.MIDI (n : Note) : Int := n.midi

/-- `Note.DurationFactor` from the source. -/
def Note.DurationFactor (n : Note) : ℚ := n.durationFactor

/-- `Note.IsPedalUp` from the source. -/
def Note.IsPedalUp (n : Note) : Bool := n.pedal == Pedal.pedalUp

/-- `Note.IsPedalDown` from the source. -/
def Note.IsPedalDown (n : Note) : Bool := n.pedal == Pedal.pedalDown

/-- `Note.IsPedalUpDown` from the source. -/
def Note.IsPedalUpDown (n : Note) : Bool := n.pedal == Pedal.pedalUpDown

/-! ## Playback timing (`Midi.Play` / `Midi.PlayNote` in midi/device.go)

`Play` computes
`wholeNoteDuration := time.Duration(int(math.Round(4*60*1000/m.bpm))) * time.Millisecond`;
we keep the value in milliseconds. -/

/-- The whole-note duration in milliseconds computed by `Midi.Play`:
`int(math.Round(4*60*1000/bpm))`. -/
def wholeNoteDuration (bpm : ℚ) : ℤ := round (4 * 60 * 1000 / bpm)

/-- The actual duration of one note in `Midi.PlayNote`:
`float32(wholeNoteDuration) * note.DurationFactor()`, modelled exactly as
`durationFactor * w` in milliseconds. -/
def noteDuration (n : Note) (w : ℚ) : ℚ := n.durationFactor * w

/-- Realized duration of one note group in `Midi.Play`: one task per note is
spawned, each lasting its note's duration, and `wg.Wait()` joins them all
before the next group starts, so the group lasts as long as its longest
task (0 for an empty group). -/
def groupDuration (g : List Note) (w : ℚ) : ℚ :=
  (g.map (fun n => noteDuration n w)).foldr max 0

/-- The largest duration factor in a group (0 for an empty group). -/
def maxFactor (g : List Note) : ℚ :=
  (g.map Note.DurationFactor).foldr max 0

/-- Sequential rendering of the groups of a sequence: each group is joined
before the next starts, so time advances by `groupDuration` per group. -/
def playGroups : List (List Note) → ℚ → ℚ → ℚ
  | [], _, now => now
  | g :: gs, w, now => playGroups gs w (now + groupDuration g w)

/-- One wire-level write `WriteShort(status, data1, data2)` tagged with the
moment (in ms) at which it is issued. -/
structure Write where
  status : Int
  data1 : Int
  data2 : Int
  moment : ℚ
  deriving DecidableEq, Repr

/-- MIDI note-on status byte (`noteOn = 0x90` in midi/device.go). -/
def noteOn : Int := 0x90

/-- MIDI note-off status byte (`noteOff = 0x80` in midi/device.go). -/
def noteOff : Int := 0x80

/-- The writes issued by `Midi.PlayNote` for one note starting at `t`:
nothing for a rest; otherwise note-on (velocity 100) at `t` and note-off at
`t` plus the note's duration. -/
def noteWrites (n : Note) (w t : ℚ) : List Write :=
  if n.isRest then []
  else [⟨noteOn, n.midi, 100, t⟩, ⟨noteOff, n.midi, 100, t + noteDuration n w⟩]

/-- All writes issued while rendering one group starting at `t`. -/
def groupWrites (g : List Note) (w t : ℚ) : List Write :=
  (g.map (fun n => noteWrites n w t)).flatten

/-- All writes of the sequential group loop of `Midi.Play`. -/
def playWrites : List (List Note) → ℚ → ℚ → List Write
  | [], _, _ => []
  | g :: gs, w, now => groupWrites g w now ++ playWrites gs w (now + groupDuration g w)

/-- Modelled from the spec: the `Play(seq, bpm, beginAt) → endingAt` body of
the `AudioDevice` contract (declared in ui/cli/help.go) is not under src;
its enabled-guard and group loop are those of `Midi.Play` in
midi/device.go, and the returned `endingAt` follows the spec.  Returns the
ending time together with the trace of device writes (empty and
`beginAt`-preserving when the device is disabled). -/
def Play (enabled : Bool) (seq : List (List Note)) (bpm : ℚ) (beginAt : ℚ) :
    ℚ × List Write :=
  if !enabled then (beginAt, [])
  else
    (playGroups seq ((wholeNoteDuration bpm : ℤ) : ℚ) beginAt,
     playWrites seq ((wholeNoteDuration bpm : ℤ) : ℚ) beginAt)

/-- `Midi.SetBeatsPerMinute` state: the stored bpm. -/
structure Midi where
  enabled : Bool
  bpm : ℚ
  deriving DecidableEq, Repr

/-- `Midi.SetBeatsPerMinute` from midi/device.go: non-positive values are
ignored, positive values are stored. -/
def SetBeatsPerMinute (v : ℚ) (m : Midi) : Midi :=
  if v ≤ 0 then m else { m with bpm := v }

/-- `Midi.BeatsPerMinute` from midi/device.go. -/
def BeatsPerMinute (m : Midi) : ℚ := m.bpm

/-! ## Pedal handling (`pedalEvent` and `Midi.handledPedalChange`) -/

/-- Modelled from the spec: the `controlChange` status constant of the midi
package is not under src; the spec fixes it as `0xB0`. -/
def controlChange : Int := 0xB0

/-- Modelled from the spec: the `sustainPedal` controller constant of the
midi package is not under src; the spec and the comment in
`pedalEvent.Handle` fix it as MIDI CC 64. -/
def sustainPedal : Int := 64

/-- `pedalEvent` from midi/device.go: a sustain-pedal change on a channel. -/
structure PedalEvent where
  goingDown : Bool
  channel : Int
  deriving DecidableEq, Repr

/-- The write issued by `pedalEvent.Handle`:
`WriteShort(controlChange | (channel-1), sustainPedal, onoff)` with
`onoff = 127` going down and `0` going up, issued at the firing time. -/
def PedalEvent.Handle (p : PedalEvent) (when : ℚ) : Write :=
  ⟨Int.lor controlChange (p.channel - 1), sustainPedal,
   if p.goingDown then 127 else 0, when⟩

/-- Modelled from the spec: `core.Timeline` is not under src; the spec says
it holds pending (event, scheduledTime) pairs with ties broken by
submission order (FIFO), so we model it as the list of scheduled pairs in
submission order. -/
abbrev Timeline := List (PedalEvent × ℚ)

/-- Modelled from the spec: `Timeline.Schedule(event, at)` enqueues the
event for the given moment; submission order is preserved (FIFO
tie-break). -/
def Timeline.Schedule (tl : Timeline) (e : PedalEvent) (moment : ℚ) : Timeline :=
  List.concat tl (e, moment)

/-- `Midi.handledPedalChange` from midi/device.go: on a single-note group
it schedules pedal events for the note's marker and reports whether the
group was handled.  Note the source's pedal-down branch schedules its event
but then falls through to `return false`. -/
def handledPedalChange (channel : Int) (timeline : Timeline) (moment : ℚ)
    (group : List Note) : Bool × Timeline :=
  if group.length == 0 || group.length > 1 then (false, timeline)
  else
    match group.head? with
    | none => (false, timeline)
    | some note =>
      if note.IsPedalUp then
        (true, timeline.Schedule ⟨false, channel⟩ moment)
      else if note.IsPedalUpDown then
        (true, (timeline.Schedule ⟨false, channel⟩ moment).Schedule ⟨true, channel⟩ moment)
      else if note.IsPedalDown then
        (false, timeline.Schedule ⟨true, channel⟩ moment)
      else (false, timeline)

/-! ## Input capture (`Listen` in control/listen.go) -/

/-- Lookup in an association list keyed by MIDI number, the model of the Go
map `notesOn map[int]int`. -/
def lookupKey (l : List (Int × Nat)) (k : Int) : Option Nat :=
  match l with
  | [] => none
  | (k', v) :: rest => if k' == k then some v else lookupKey rest k

/-- Store a binding in the association list, replacing an existing key in
place (the model of Go map assignment). -/
def putKey (l : List (Int × Nat)) (k : Int) (v : Nat) : List (Int × Nat) :=
  match l with
  | [] => [(k, v)]
  | (k', v') :: rest =>
    if k' == k then (k, v) :: rest else (k', v') :: putKey rest k v

/-- Remove a key from the association list (the model of Go `delete`). -/
def removeKey (l : List (Int × Nat)) (k : Int) : List (Int × Nat) :=
  match l with
  | [] => []
  | (k', v') :: rest =>
    if k' == k then removeKey rest k else (k', v') :: removeKey rest k

/-- The state of `control.Listen` relevant to note tracking: the
`notesOn` map and the `noteChangeCount` counter. -/
structure Listen where
  notesOn : List (Int × Nat)
  noteChangeCount : Nat
  deriving DecidableEq, Repr

/-- `Listen.NoteOn` from control/listen.go: increment the change counter to
`c`, record `notesOn[midi] = c`, and return the captured counter `c` that
the guard predicate closes over. -/
def Listen.NoteOn (l : Listen) (n : Note) : Listen × Nat :=
  let c := l.noteChangeCount + 1
  ({ notesOn := putKey l.notesOn n.MIDI c, noteChangeCount := c }, c)

/-- `Listen.isNoteOnCount` from control/listen.go: the note is still on and
on with the captured count. -/
def Listen.isNoteOnCount (l : Listen) (nr : Int) (countCheck : Nat) : Bool :=
  match lookupKey l.notesOn nr with
  | none => false
  | some count => count == countCheck

/-- `Listen.NoteOff` from control/listen.go: delete the note's entry from
`notesOn`; the change counter is untouched. -/
def Listen.NoteOff (l : Listen) (n : Note) : Listen :=
  { l with notesOn := removeKey l.notesOn n.MIDI }

/-- One listener event, for reasoning about sequences of callbacks. -/
inductive ListenOp where
  | onEv (n : Note)
  | offEv (n : Note)
  deriving DecidableEq, Repr

/-- Apply a sequence of `NoteOn`/`NoteOff` callbacks to a listener state. -/
def Listen.applyOps (l : Listen) : List ListenOp → Listen
  | [] => l
  | ListenOp.onEv n :: rest => ((l.NoteOn n).1).applyOps rest
  | ListenOp.offEv n :: rest => (l.NoteOff n).applyOps rest

/-! ## `DeviceRegistry.Output` (midi/device.go)

We model the registry restricted to one fixed device id.  Each call to
`Output(id)` consists of two critical sections: the shared-lock cache
check, and — on a miss — the exclusive-lock section that opens a stream,
wraps it in a fresh `OutputDevice` and caches it.  Device instances are
identified by a freshness tag so that distinct `NewOutputDevice` results
are distinguishable. -/

/-- Registry state for one device id: the cached `OutputDevice` instance
(by tag), the next fresh instance tag, and how many hardware streams have
been opened for this id. -/
structure Reg where
  cache : Option Nat
  nextDev : Nat
  opened : Nat
  deriving DecidableEq, Repr

/-- Progress of one caller through `DeviceRegistry.Output`: before the
shared-lock check, after a cache miss (waiting for the exclusive lock), or
returned with a device instance. -/
inductive Phase where
  | start
  | missed
  | done (dev : Nat)
  deriving DecidableEq, Repr

/-- One atomic critical section of `DeviceRegistry.Output` as written in
midi/device.go: the shared-lock check returns the cached instance on a hit
and otherwise records a miss; the exclusive-lock section opens a stream
(modelled from the spec: `streamRegistry.output` is not under src, the
spec says the miss path opens the hardware stream), creates a fresh
`OutputDevice`, caches it and returns it — without re-checking the
cache. -/
def outputStep (r : Reg) : Phase → Reg × Phase
  | Phase.start =>
    match r.cache with
    | some d => (r, Phase.done d)
    | none => (r, Phase.missed)
  | Phase.missed =>
    ({ cache := some r.nextDev, nextDev := r.nextDev + 1, opened := r.opened + 1 },
     Phase.done r.nextDev)
  | Phase.done d => (r, Phase.done d)

/-- The spec's variant of the exclusive-lock section, for comparison: after
upgrading to the exclusive lock it re-checks the cache (double-checked
pattern) and only opens when the id is still absent. -/
def outputStepDoubleChecked (r : Reg) : Phase → Reg × Phase
  | Phase.start =>
    match r.cache with
    | some d => (r, Phase.done d)
    | none => (r, Phase.missed)
  | Phase.missed =>
    match r.cache with
    | some d => (r, Phase.done d)
    | none =>
      ({ cache := some r.nextDev, nextDev := r.nextDev + 1, opened := r.opened + 1 },
       Phase.done r.nextDev)
  | Phase.done d => (r, Phase.done d)

/-- Identity of the two concurrent callers. -/
inductive Tid where
  | a
  | b
  deriving DecidableEq, Repr

/-- System state of two concurrent `Output(id)` calls. -/
structure Sys where
  reg : Reg
  ta : Phase
  tb : Phase
  deriving DecidableEq, Repr

/-- Run one critical section of the chosen caller, under a given semantics
for the exclusive-lock section. -/
def stepWith (f : Reg → Phase → Reg × Phase) (s : Sys) : Tid → Sys
  | Tid.a => let (r, p) := f s.reg s.ta; { s with reg := r, ta := p }
  | Tid.b => let (r, p) := f s.reg s.tb; { s with reg := r, tb := p }

/-- Execute a schedule (an interleaving of the two callers' critical
sections) under the code as written. -/
def runSchedule (s : Sys) (sch : List Tid) : Sys :=
  sch.foldl (stepWith outputStep) s

/-- Execute a schedule under the spec's double-checked variant. -/
def runScheduleDC (s : Sys) (sch : List Tid) : Sys :=
  sch.foldl (stepWith outputStepDoubleChecked) s

/-- Initial state: device id not yet cached, no stream opened. -/
def initSys : Sys := ⟨⟨none, 0, 0⟩, Phase.start, Phase.start⟩

/-- Whether a caller has returned. -/
def Phase.result : Phase → Option Nat
  | Phase.done d => some d
  | _ => none

/-- Both callers have returned a device instance. -/
def Sys.completed (s : Sys) : Bool :=
  (s.ta.result).isSome && (s.tb.result).isSome

/-! ## Helper lemmas -/

/-- Sequential group rendering advances the clock by the sum of the group
durations. -/
theorem playGroups_eq_add_sum (gs : List (List Note)) (w now : ℚ) :
    playGroups gs w now = now + (gs.map (fun g => groupDuration g w)).sum := by
  induction gs generalizing now with
  | nil => simp [playGroups]
  | cons g rest ih =>
    simp only [playGroups, ih, List.map_cons, List.sum_cons]
    ring

/-- The whole-note duration is nonnegative for a positive bpm. -/
theorem wholeNoteDuration_nonneg (bpm : ℚ) (h : 0 < bpm) :
    0 ≤ wholeNoteDuration bpm := by
  unfold wholeNoteDuration
  rw [round_eq]
  refine Int.le_floor.mpr ?_
  have h4 : (0 : ℚ) ≤ 4 * 60 * 1000 / bpm := by positivity
  push_cast
  linarith

/-- Removing a key that is not bound leaves the association list as is. -/
theorem removeKey_of_lookup_none (l : List (Int × Nat)) (k : Int)
    (h : lookupKey l k = none) : removeKey l k = l := by
  induction l with
  | nil => rfl
  | cons p rest ih =>
    obtain ⟨k', v'⟩ := p
    by_cases hk : k' == k
    · simp [lookupKey, hk] at h
    · simp only [lookupKey, hk, Bool.false_eq_true, if_false] at h
      simp [removeKey, hk, ih h]

/-- After removal, the key is no longer bound. -/
theorem lookupKey_removeKey (l : List (Int × Nat)) (k : Int) :
    lookupKey (removeKey l k) k = none := by
  induction l with
  | nil => rfl
  | cons p rest ih =>
    obtain ⟨k', v'⟩ := p
    by_cases hk : k' == k
    · simpa [removeKey, hk] using ih
    · simpa [removeKey, lookupKey, hk] using ih

/-- Storing a key makes it looked up with the stored value. -/
theorem lookupKey_putKey (l : List (Int × Nat)) (k : Int) (v : Nat) :
    lookupKey (putKey l k v) k = some v := by
  induction l with
  | nil => simp [putKey, lookupKey]
  | cons p rest ih =>
    obtain ⟨k', v'⟩ := p
    by_cases hk : k' == k
    · simp [putKey, lookupKey, hk]
    · simpa [putKey, lookupKey, hk] using ih

/-- The change counter never decreases under `NoteOn`/`NoteOff`
callbacks. -/
theorem applyOps_count_le (l : Listen) (ops : List ListenOp) :
    l.noteChangeCount ≤ (l.applyOps ops).noteChangeCount := by
  induction ops generalizing l with
  | nil => exact le_refl _
  | cons op rest ih =>
    cases op with
    | onEv n =>
      refine le_trans ?_ (ih ((l.NoteOn n).1))
      exact Nat.le_succ _
    | offEv n => exact ih (l.NoteOff n)

/-! ## Claims -/

/-- C1: on an enabled device, `Play` returns
`endingAt = beginAt + Σ (group durations)` over the groups in order, so
subsequent `Play` calls can be sequenced back-to-back. -/
theorem play_endingAt_accumulates (seq : List (List Note)) (bpm beginAt : ℚ) :
    (Play true seq bpm beginAt).1 =
      beginAt +
        (seq.map (fun g => groupDuration g ((wholeNoteDuration bpm : ℤ) : ℚ))).sum := by
  simp only [Play, Bool.not_true, Bool.false_eq_true, if_false]
  exact playGroups_eq_add_sum seq _ beginAt

/-- C3: the whole-note duration equals `round (4 × 60000 / bpm)`
milliseconds, a note's actual duration is its duration factor times the
whole-note duration; at bpm 120 the whole note lasts 2000 ms and a
factor-1/4 note lasts 500 ms. -/
theorem wholeNote_duration_spec :
    (∀ bpm : ℚ, wholeNoteDuration bpm = round (4 * 60000 / bpm)) ∧
    (∀ (n : Note) (w : ℚ), noteDuration n w = n.durationFactor * w) ∧
    wholeNoteDuration 120 = 2000 ∧
    noteDuration ⟨false, 60, 1/4, Pedal.noPedal⟩ ((wholeNoteDuration 120 : ℤ) : ℚ) = 500 := by
  refine ⟨fun bpm => ?_, fun n w => rfl, ?_, ?_⟩
  · norm_num [wholeNoteDuration]
  · norm_num [wholeNoteDuration, round_eq]
  · norm_num [wholeNoteDuration, noteDuration, round_eq]

/-- C7: `SetBeatsPerMinute` ignores non-positive values, stores positive
values, and hence preserves strict positivity of the stored BPM. -/
theorem setBeatsPerMinute_spec (v : ℚ) (m : Midi) :
    (v ≤ 0 → SetBeatsPerMinute v m = m) ∧
    (0 < v → (SetBeatsPerMinute v m).bpm = v) ∧
    (0 < m.bpm → 0 < (SetBeatsPerMinute v m).bpm) := by
  unfold SetBeatsPerMinute
  refine ⟨fun h => by simp [h], fun h => ?_, fun h => ?_⟩
  · rw [if_neg (by linarith)]
  · by_cases hv : v ≤ 0
    · simpa [hv]
    · rw [if_neg hv]
      simpa using lt_of_not_le hv

/-- Witness for C7 at `v = 3`, `v = -1` and a state with BPM 120. -/
theorem setBeatsPerMinute_spec_witness :
    SetBeatsPerMinute (-1) ⟨true, 120⟩ = ⟨true, 120⟩ ∧
    (SetBeatsPerMinute 3 ⟨true, 120⟩).bpm = 3 ∧
    0 < (SetBeatsPerMinute 3 ⟨true, 120⟩).bpm :=
  ⟨(setBeatsPerMinute_spec (-1) ⟨true, 120⟩).1 (by norm_num),
   (setBeatsPerMinute_spec 3 ⟨true, 120⟩).2.1 (by norm_num),
   (setBeatsPerMinute_spec 3 ⟨true, 120⟩).2.2 (by norm_num)⟩

/-- C8: `Play` on a disabled device performs no device writes and returns
`beginAt` unchanged; no error path exists. -/
theorem play_disabled_noop (seq : List (List Note)) (bpm beginAt : ℚ) :
    Play false seq bpm beginAt = (beginAt, []) := by
  simp [Play]

/-- Folding max over per-note durations factors out a nonnegative
whole-note duration. -/
theorem groupDuration_eq_maxFactor_mul (g : List Note) (w : ℚ) (hw : 0 ≤ w) :
    groupDuration g w = maxFactor g * w := by
  induction g with
  | nil => simp [groupDuration, maxFactor]
  | cons n rest ih =>
    simp only [groupDuration, maxFactor, List.map_cons, List.foldr_cons] at ih ⊢
    rw [ih, max_mul_of_nonneg _ _ hw, noteDuration, Note.DurationFactor]

/-- C4: a group of simultaneous notes is joined before the next group
starts, so its realized duration is the maximum of its members' durations,
i.e. `max fᵢ × wholeNoteDuration`, not their sum. -/
theorem group_realized_duration_is_max (g : List Note) (bpm : ℚ) (h : 0 < bpm) :
    groupDuration g ((wholeNoteDuration bpm : ℤ) : ℚ) =
      maxFactor g * ((wholeNoteDuration bpm : ℤ) : ℚ) := by
  refine groupDuration_eq_maxFactor_mul g _ ?_
  exact_mod_cast wholeNoteDuration_nonneg bpm h

/-- Witness for C4 at bpm 120 and a chord of factors 1 and 1/2. -/
theorem group_realized_duration_is_max_witness :
    (0 : ℚ) < 120 ∧
    groupDuration [⟨false, 60, 1, Pedal.noPedal⟩, ⟨false, 64, 1/2, Pedal.noPedal⟩]
        ((wholeNoteDuration 120 : ℤ) : ℚ) =
      maxFactor [⟨false, 60, 1, Pedal.noPedal⟩, ⟨false, 64, 1/2, Pedal.noPedal⟩] *
        ((wholeNoteDuration 120 : ℤ) : ℚ) :=
  ⟨by norm_num,
   group_realized_duration_is_max
     [⟨false, 60, 1, Pedal.noPedal⟩, ⟨false, 64, 1/2, Pedal.noPedal⟩] 120 (by norm_num)⟩

/-- C2: pedal-up and pedal-up-then-down single-note groups are reported
handled and their Control-Change events (value 0 up, 127 down) go to the
scheduler at the note's moment — but the pedal-down case, while scheduling
the correct down event, falls through to `return false`, so the handler
reports the group as NOT handled, contradicting the claim. -/
theorem pedal_down_reported_unhandled :
    handledPedalChange 1 [] 0 [⟨false, 0, 1, Pedal.pedalUp⟩] =
      (true, [(⟨false, 1⟩, 0)]) ∧
    handledPedalChange 1 [] 0 [⟨false, 0, 1, Pedal.pedalUpDown⟩] =
      (true, [(⟨false, 1⟩, 0), (⟨true, 1⟩, 0)]) ∧
    handledPedalChange 1 [] 0 [⟨false, 0, 1, Pedal.pedalDown⟩] =
      (false, [(⟨true, 1⟩, 0)]) ∧
    PedalEvent.Handle ⟨false, 1⟩ 0 = ⟨controlChange, sustainPedal, 0, 0⟩ ∧
    PedalEvent.Handle ⟨true, 1⟩ 0 = ⟨controlChange, sustainPedal, 127, 0⟩ := by
  refine ⟨rfl, rfl, rfl, ?_, ?_⟩ <;>
    simp [PedalEvent.Handle, controlChange, sustainPedal, Int.lor]

/-- C5: an up-then-down pedal note submits exactly two events to the
scheduler, both at the note's moment, with the up event submitted strictly
before the down event (FIFO order). -/
theorem pedal_updown_two_events (channel : Int) (tl : Timeline) (t : ℚ)
    (r : Bool) (m : Int) (f : ℚ) :
    handledPedalChange channel tl t [⟨r, m, f, Pedal.pedalUpDown⟩] =
      (true, tl ++ [(⟨false, channel⟩, t), (⟨true, channel⟩, t)]) := by
  simp [handledPedalChange, Timeline.Schedule, Note.IsPedalUp, Note.IsPedalUpDown]

/-- C6: the guard predicate captured at `NoteOn` for `(midi, c)` is true
exactly when `notesOn[midi]` is present and equal to `c`; after any further
callbacks followed by a `NoteOff` and a fresh `NoteOn` of the same pitch,
the fresh counter differs from `c` and the original guard is false. -/
theorem noteOn_guard_spec (l0 : Listen) (n : Note) (ops : List ListenOp) :
    (∀ (l : Listen) (nr : Int) (c : Nat),
        l.isNoteOnCount nr c = true ↔ lookupKey l.notesOn nr = some c) ∧
    ((((l0.NoteOn n).1.applyOps ops).NoteOff n).NoteOn n).2 ≠ (l0.NoteOn n).2 ∧
    ((((l0.NoteOn n).1.applyOps ops).NoteOff n).NoteOn n).1.isNoteOnCount
        n.MIDI (l0.NoteOn n).2 = false := by
  have hmono := applyOps_count_le (l0.NoteOn n).1 ops
  have hc : ((l0.NoteOn n).1).noteChangeCount = l0.noteChangeCount + 1 := rfl
  have hfresh :
      ((((l0.NoteOn n).1.applyOps ops).NoteOff n).NoteOn n).2 =
        ((l0.NoteOn n).1.applyOps ops).noteChangeCount + 1 := rfl
  have hne :
      ((((l0.NoteOn n).1.applyOps ops).NoteOff n).NoteOn n).2 ≠ (l0.NoteOn n).2 := by
    rw [hfresh]
    have : (l0.NoteOn n).2 = l0.noteChangeCount + 1 := rfl
    omega
  refine ⟨fun l nr c => ?_, hne, ?_⟩
  · unfold Listen.isNoteOnCount
    cases h : lookupKey l.notesOn nr with
    | none => simp [h]
    | some count => simp [h]
  · unfold Listen.isNoteOnCount
    have hput :
        lookupKey (((((l0.NoteOn n).1.applyOps ops).NoteOff n).NoteOn n).1).notesOn
            n.MIDI =
          some ((((l0.NoteOn n).1.applyOps ops).NoteOff n).NoteOn n).2 :=
      lookupKey_putKey _ _ _
    rw [hput]
    simpa using hne

/-- Witness for C6: starting from the empty listener, an on/off/on cycle
of pitch 60 invalidates the guard captured at the first `NoteOn`. -/
theorem noteOn_guard_spec_witness :
    ((((Listen.NoteOn ⟨[], 0⟩ ⟨false, 60, 1, Pedal.noPedal⟩).1.applyOps
          []).NoteOff ⟨false, 60, 1, Pedal.noPedal⟩).NoteOn
        ⟨false, 60, 1, Pedal.noPedal⟩).1.isNoteOnCount
      (Note.MIDI ⟨false, 60, 1, Pedal.noPedal⟩)
      (Listen.NoteOn ⟨[], 0⟩ ⟨false, 60, 1, Pedal.noPedal⟩).2 = false :=
  (noteOn_guard_spec ⟨[], 0⟩ ⟨false, 60, 1, Pedal.noPedal⟩ []).2.2

/-- C10: a `NoteOff` for a pitch absent from `notesOn` leaves the listener
state unchanged, and a second `NoteOff` for the same pitch is a no-op, so
`NoteOff` is idempotent. -/
theorem noteOff_absent_noop (l : Listen) (n : Note) :
    (lookupKey l.notesOn n.MIDI = none → l.NoteOff n = l) ∧
    (l.NoteOff n).NoteOff n = l.NoteOff n := by
  constructor
  · intro h
    unfold Listen.NoteOff
    rw [removeKey_of_lookup_none _ _ h]
  · unfold Listen.NoteOff
    rw [removeKey_of_lookup_none _ _ (lookupKey_removeKey _ _)]

/-- Witness for C10: `NoteOff` of pitch 61 on a state holding only pitch
60 is the identity. -/
theorem noteOff_absent_noop_witness :
    Listen.NoteOff ⟨[(60, 1)], 1⟩ ⟨false, 61, 1, Pedal.noPedal⟩ = ⟨[(60, 1)], 1⟩ ∧
    Listen.NoteOff (Listen.NoteOff ⟨[(60, 1)], 1⟩ ⟨false, 61, 1, Pedal.noPedal⟩)
        ⟨false, 61, 1, Pedal.noPedal⟩ =
      Listen.NoteOff ⟨[(60, 1)], 1⟩ ⟨false, 61, 1, Pedal.noPedal⟩ :=
  ⟨(noteOff_absent_noop ⟨[(60, 1)], 1⟩ ⟨false, 61, 1, Pedal.noPedal⟩).1 (by decide),
   (noteOff_absent_noop ⟨[(60, 1)], 1⟩ ⟨false, 61, 1, Pedal.noPedal⟩).2⟩

/-- C9 counterexample: under the interleaving in which both callers pass
the shared-lock check before either reaches the exclusive section, both
miss, both open a stream, and they return distinct device instances — the
code has no re-check after the lock upgrade. -/
theorem output_race_two_streams :
    (runSchedule initSys [Tid.a, Tid.b, Tid.a, Tid.b]).completed = true ∧
    (runSchedule initSys [Tid.a, Tid.b, Tid.a, Tid.b]).reg.opened = 2 ∧
    (runSchedule initSys [Tid.a, Tid.b, Tid.a, Tid.b]).ta.result ≠
      (runSchedule initSys [Tid.a, Tid.b, Tid.a, Tid.b]).tb.result := by
  decide

/-- C9 (amended): `Output(id)` returns the cached instance without opening
anything when the shared-lock check hits; every caller reaching the
exclusive section opens exactly one new stream (no re-check); when the two
first-access calls do not interleave, exactly one stream is opened and
both callers receive the same instance. -/
theorem output_cache_behaviour (r : Reg) (d : Nat) :
    (r.cache = some d → outputStep r Phase.start = (r, Phase.done d)) ∧
    (outputStep r Phase.missed).1.opened = r.opened + 1 ∧
    ((runSchedule initSys [Tid.a, Tid.a, Tid.b]).reg.opened = 1 ∧
     (runSchedule initSys [Tid.a, Tid.a, Tid.b]).completed = true ∧
     (runSchedule initSys [Tid.a, Tid.a, Tid.b]).ta.result =
       (runSchedule initSys [Tid.a, Tid.a, Tid.b]).tb.result) := by
  refine ⟨fun h => ?_, rfl, by decide⟩
  simp [outputStep, h]

/-- Witness for C9's amended theorem: a registry already caching device 7
returns it from the shared-lock check. -/
theorem output_cache_behaviour_witness :
    outputStep ⟨some 7, 8, 1⟩ Phase.start = (⟨some 7, 8, 1⟩, Phase.done 7) ∧
    (outputStep ⟨some 7, 8, 1⟩ Phase.missed).1.opened = 2 :=
  ⟨(output_cache_behaviour ⟨some 7, 8, 1⟩ 7).1 rfl,
   (output_cache_behaviour ⟨some 7, 8, 1⟩ 7).2.1⟩

/-- With the spec's double-checked re-check in the exclusive section, the
same racing interleaving opens exactly one stream and both callers get the
same instance. -/
theorem outputDoubleChecked_race_one_stream :
    (runScheduleDC initSys [Tid.a, Tid.b, Tid.a, Tid.b]).completed = true ∧
    (runScheduleDC initSys [Tid.a, Tid.b, Tid.a, Tid.b]).reg.opened = 1 ∧
    (runScheduleDC initSys [Tid.a, Tid.b, Tid.a, Tid.b]).ta.result =
      (runScheduleDC initSys [Tid.a, Tid.b, Tid.a, Tid.b]).tb.result := by
  decide

end Melrose
